import Mathlib

/-
Verification of src/scrape_nested_images.py (function scrape_images_from_pages).

The script is a two-level enumeration-and-fetch loop: for each parent page
1..num_parent_pages it creates a page-local output directory and probes image
indices 1..max_images_per_page, downloading each image until a stop condition
(404, other HTTP error status, or a transport exception) ends the page.

Shallow embedding choices:
  - Strings are `List Char`; Python f-string concatenation is list append, and
    str(n) for a natural n is `natToDec n` (decimal digits, fuel-structural so
    it kernel-evaluates).
  - The external world is an `Oracle`: `fetch page idx` is the outcome of
    `requests.get` on the URL for (page, idx) (the URL is the function
    `fullImageUrl` of (page, idx)); `writeOk page idx` tells whether
    `open(...,'wb')`/`f.write` succeeds (False models an uncaught OSError);
    `mkdirPageOk`/`mkdirRootOk` tell whether `os.makedirs` succeeds.
  - The filesystem is `FS` (existing directories and files, by path); the
    console output is abstracted as a trace of `Event`s recording, in order,
    the observable actions (page visits, HTTP requests, file writes, skips of
    existing files, the cap-reached report, page skips on mkdir failure).
  - The Python loop-variable leak (`image_idx` read after the inner `for`)
    is modelled by threading the last assigned index through `innerLoop` and
    returning it in `InnerResult.done`, together with a flag telling whether
    the loop ended by `break`.
The field `parent_page_name_pfx` embeds the script's parameter
`parent_page_name_prefix` (only the Lean identifier is shortened).
-/

/-- Decimal digit to character, as in Python str(int). -/
def digitChar : Nat → Char
  | 0 => '0'
  | 1 => '1'
  | 2 => '2'
  | 3 => '3'
  | 4 => '4'
  | 5 => '5'
  | 6 => '6'
  | 7 => '7'
  | 8 => '8'
  | 9 => '9'
  | _ => '?'

/-- Fuel-structural decimal rendering of a natural number (most significant
digit first); fuel at least n suffices. -/
def natToDecAux : Nat → Nat → List Char
  | 0, _ => []
  | fuel + 1, n => if n = 0 then [] else natToDecAux fuel (n / 10) ++ [digitChar (n % 10)]

/-- Decimal string of a natural number, as Python's str(n). -/
def natToDec (n : Nat) : List Char :=
  if n = 0 then ['0'] else natToDecAux n n

/-- Model of Python str.rstrip applied with the slash character: drop all
trailing slash characters. -/
def rstripSlash (s : List Char) : List Char :=
  (s.reverse.dropWhile (fun c => c == '/')).reverse

/-- Model of Python str.startswith: is the first list a prefix of the second. -/
def listStartsWith : List Char → List Char → Bool
  | [], _ => true
  | _ :: _, [] => false
  | a :: as, b :: bs => a == b && listStartsWith as bs

/-- Literal "http://" of the validation check. -/
def httpLit : List Char := "http://".toList

/-- Literal "https://" of the validation check. -/
def httpsLit : List Char := "https://".toList

/-- Configuration record: the parameters of scrape_images_from_pages.
Counts are Int, as Python ints may be non-positive. -/
structure ScrapeConfig where
  base_url_for_pages : List Char
  parent_page_name_pfx : List Char
  num_parent_pages : Int
  image_extension : List Char
  max_images_per_page : Int
  output_directory : List Char
deriving Repr, DecidableEq

/-- Validation errors, one per early-return branch of lines 31-43 of the
script, in source order. -/
inductive ConfigError where
  | badBaseUrl
  | badExtension
  | badNumPages
  | badMaxImages
deriving Repr, DecidableEq

/-- Validation of lines 31-43: base URL scheme, extension dot, positive page
count, positive image cap, checked in source order; first failure wins. -/
def validateConfig (cfg : ScrapeConfig) : Option ConfigError :=
  if !(listStartsWith httpLit cfg.base_url_for_pages
        || listStartsWith httpsLit cfg.base_url_for_pages) then
    some ConfigError.badBaseUrl
  else if !listStartsWith ['.'] cfg.image_extension then
    some ConfigError.badExtension
  else if cfg.num_parent_pages ≤ 0 then
    some ConfigError.badNumPages
  else if cfg.max_images_per_page ≤ 0 then
    some ConfigError.badMaxImages
  else
    none

/-- Page segment name, line 58: f-string prefix_pagenum. -/
def parentPageSegment (cfg : ScrapeConfig) (page : Nat) : List Char :=
  cfg.parent_page_name_pfx ++ '_' :: natToDec page

/-- Per-page image base URL, line 61: rstrip the base URL of trailing slashes
then append one slash and the page segment. -/
def currentPageImageBaseUrl (cfg : ScrapeConfig) (page : Nat) : List Char :=
  rstripSlash cfg.base_url_for_pages ++ '/' :: parentPageSegment cfg page

/-- Image filename, line 78: index followed by the extension. -/
def imageFilename (cfg : ScrapeConfig) (idx : Nat) : List Char :=
  natToDec idx ++ cfg.image_extension

/-- Full image URL, line 79. -/
def fullImageUrl (cfg : ScrapeConfig) (page idx : Nat) : List Char :=
  currentPageImageBaseUrl cfg page ++ '/' :: imageFilename cfg idx

/-- Page-local output directory, line 63: os.path.join of output directory and
page segment. -/
def pageOutputDir (cfg : ScrapeConfig) (page : Nat) : List Char :=
  cfg.output_directory ++ '/' :: parentPageSegment cfg page

/-- Local destination path of one image, line 80. -/
def outputImagePath (cfg : ScrapeConfig) (page idx : Nat) : List Char :=
  pageOutputDir cfg page ++ '/' :: imageFilename cfg idx

/-- Outcome of one requests.get call: an HTTP status, or one of the transport
exceptions of the except clauses (lines 111-123). -/
inductive FetchOutcome where
  | status (code : Nat)
  | connError
  | timeoutErr
  | httpExc
  | reqExc
deriving Repr, DecidableEq

/-- External world: HTTP outcomes per (page, index), write success per
(page, index), and directory-creation success. -/
structure Oracle where
  fetch : Nat → Nat → FetchOutcome
  writeOk : Nat → Nat → Bool
  mkdirPageOk : Nat → Bool
  mkdirRootOk : Bool

/-- Filesystem state: the directories and files that exist, by path. -/
structure FS where
  dirs : List (List Char)
  files : List (List Char)
deriving Repr, DecidableEq

/-- Observable actions, in execution order. -/
inductive Event where
  | pageVisited (page : Nat)
  | pageSkipped (page : Nat)
  | request (page idx : Nat)
  | wrote (page idx : Nat)
  | skippedExisting (page idx : Nat)
  | capReported (page : Nat)
deriving Repr, DecidableEq

/-- Result of the inner image loop (lines 76-123): either an uncaught write
failure aborting the whole run at some index, or normal loop exit carrying the
filesystem, the per-page success counter, the final value of the Python loop
variable image_idx, whether the loop ended by break, and the trace. -/
inductive InnerResult where
  | aborted (fs : FS) (tr : List Event) (idx : Nat)
  | done (fs : FS) (downloaded : Nat) (lastIdx : Nat) (broke : Bool) (tr : List Event)
deriving Repr, DecidableEq

/-- Inner image loop of lines 77-123, over the remaining index list.
Per index: if the destination exists, count it and continue (lines 83-86);
otherwise issue the request; on status 200 write the file (abort on write
failure, the uncaught OSError); on 404 or any other status, or on any of the
caught transport exceptions, break. -/
def innerLoop (cfg : ScrapeConfig) (o : Oracle) (page : Nat) :
    List Nat → FS → Nat → Nat → List Event → InnerResult
  | [], fs, dl, lastIdx, tr => InnerResult.done fs dl lastIdx false tr
  | idx :: rest, fs, dl, _, tr =>
    let path := outputImagePath cfg page idx
    if path ∈ fs.files then
      innerLoop cfg o page rest fs (dl + 1) idx (tr ++ [Event.skippedExisting page idx])
    else
      let tr2 := tr ++ [Event.request page idx]
      match o.fetch page idx with
      | FetchOutcome.status code =>
        if code = 200 then
          if o.writeOk page idx then
            innerLoop cfg o page rest ⟨fs.dirs, fs.files ++ [path]⟩ (dl + 1) idx
              (tr2 ++ [Event.wrote page idx])
          else
            InnerResult.aborted fs tr2 idx
        else if code = 404 then
          InnerResult.done fs dl idx true tr2
        else
          InnerResult.done fs dl idx true tr2
      | FetchOutcome.connError => InnerResult.done fs dl idx true tr2
      | FetchOutcome.timeoutErr => InnerResult.done fs dl idx true tr2
      | FetchOutcome.httpExc => InnerResult.done fs dl idx true tr2
      | FetchOutcome.reqExc => InnerResult.done fs dl idx true tr2

/-- Result of processing one page: aborted run (uncaught write failure) or
normal continuation. -/
inductive PageResult where
  | aborted (fs : FS) (tr : List Event) (idx : Nat)
  | ok (fs : FS) (tr : List Event)
deriving Repr, DecidableEq

/-- One iteration of the page loop, lines 57-134: visit the page, ensure the
page directory (skipping the page if creation fails, lines 68-74), run the
inner loop, then the post-loop report of lines 128-134 which reads the leaked
loop variable: the cap message is printed when the counter is positive and the
final image index equals the cap, whether or not the loop broke. -/
def processPage (cfg : ScrapeConfig) (o : Oracle) (page : Nat) (fs : FS)
    (tr : List Event) : PageResult :=
  let dir := pageOutputDir cfg page
  let maxN := cfg.max_images_per_page.toNat
  let tr0 := tr ++ [Event.pageVisited page]
  let go : FS → PageResult := fun fs1 =>
    match innerLoop cfg o page (List.range' 1 maxN) fs1 0 0 tr0 with
    | InnerResult.aborted fs2 tr2 idx => PageResult.aborted fs2 tr2 idx
    | InnerResult.done fs2 dl lastIdx _ tr2 =>
      if dl = 0 ∧ 1 < lastIdx ∧ lastIdx < maxN then
        PageResult.ok fs2 tr2
      else if 0 < dl ∧ lastIdx = maxN then
        PageResult.ok fs2 (tr2 ++ [Event.capReported page])
      else
        PageResult.ok fs2 tr2
  if dir ∈ fs.dirs then go fs
  else if o.mkdirPageOk page then go ⟨fs.dirs ++ [dir], fs.files⟩
  else PageResult.ok fs (tr0 ++ [Event.pageSkipped page])

/-- Final outcome of a run. -/
inductive RunOutcome where
  | configError (e : ConfigError)
  | rootDirFail
  | writeCrash
  | completed
deriving Repr, DecidableEq

/-- Result of a run: outcome, final filesystem, trace. -/
structure RunResult where
  outcome : RunOutcome
  fs : FS
  trace : List Event
deriving Repr, DecidableEq

/-- The page loop of line 57, over the remaining page list. -/
def pagesLoop (cfg : ScrapeConfig) (o : Oracle) :
    List Nat → FS → List Event → RunResult
  | [], fs, tr => ⟨RunOutcome.completed, fs, tr⟩
  | p :: rest, fs, tr =>
    match processPage cfg o p fs tr with
    | PageResult.aborted fs2 tr2 _ => ⟨RunOutcome.writeCrash, fs2, tr2⟩
    | PageResult.ok fs2 tr2 => pagesLoop cfg o rest fs2 tr2

/-- Whole run of scrape_images_from_pages: validate (lines 31-43), create the
root output directory if absent aborting the run on failure (lines 46-52),
then loop over pages 1..num_parent_pages. -/
def scrape_images_from_pages (cfg : ScrapeConfig) (o : Oracle) (fs : FS) : RunResult :=
  match validateConfig cfg with
  | some e => ⟨RunOutcome.configError e, fs, []⟩
  | none =>
    if cfg.output_directory ∈ fs.dirs then
      pagesLoop cfg o (List.range' 1 cfg.num_parent_pages.toNat) fs []
    else if o.mkdirRootOk then
      pagesLoop cfg o (List.range' 1 cfg.num_parent_pages.toNat)
        ⟨fs.dirs ++ [cfg.output_directory], fs.files⟩ []
    else ⟨RunOutcome.rootDirFail, fs, []⟩

/-- Page number of a page-visit event, for trace projections. -/
def visitedOf : Event → Option Nat
  | Event.pageVisited p => some p
  | _ => none

/-- Index of a request event of the given page, for trace projections. -/
def requestIdxOn (p : Nat) : Event → Option Nat
  | Event.request q i => if q = p then some i else none
  | _ => none

/-- Index of a file-write event of the given page, for trace projections. -/
def wroteIdxOn (p : Nat) : Event → Option Nat
  | Event.wrote q i => if q = p then some i else none
  | _ => none

/-- Index of a probe (request or existing-file skip) of the given page: every
inner-loop iteration produces exactly one probe event for its index. -/
def probedIdxOn (p : Nat) : Event → Option Nat
  | Event.request q i => if q = p then some i else none
  | Event.skippedExisting q i => if q = p then some i else none
  | _ => none

/-! Helper lemmas about decimal rendering and paths. -/

/-- Injectivity of the digit-to-character table on digits. -/
theorem digitChar_injOn : ∀ d < 10, ∀ e < 10, digitChar d = digitChar e → d = e := by
  decide

/-- Mapping the digit table over digit lists is injective. -/
theorem map_digitChar_inj : ∀ l1 l2 : List Nat, (∀ x ∈ l1, x < 10) → (∀ x ∈ l2, x < 10) →
    l1.map digitChar = l2.map digitChar → l1 = l2 := by
  intro l1
  induction l1 with
  | nil => intro l2 _ _ h; cases l2 <;> simp_all
  | cons a as ih =>
    intro l2 h1 h2 h
    cases l2 with
    | nil => simp_all
    | cons b bs =>
      simp only [List.map_cons, List.cons.injEq] at h
      have ha : a = b :=
        digitChar_injOn a (h1 a (by simp)) b (h2 b (by simp)) h.1
      have hb := ih bs (fun x hx => h1 x (by simp [hx])) (fun x hx => h2 x (by simp [hx])) h.2
      simp [ha, hb]

/-- With enough fuel, natToDecAux agrees with the base-10 digit expansion. -/
theorem natToDecAux_eq_digits (fuel : Nat) :
    ∀ n : Nat, n ≤ fuel → natToDecAux fuel n = ((Nat.digits 10 n).map digitChar).reverse := by
  induction fuel with
  | zero =>
    intro n hn
    have : n = 0 := Nat.le_zero.mp hn
    simp [this, natToDecAux]
  | succ f ih =>
    intro n hn
    by_cases hn0 : n = 0
    · simp [hn0, natToDecAux]
    · have hpos : 0 < n := Nat.pos_of_ne_zero hn0
      have hdiv : n / 10 ≤ f := by
        have : n / 10 < n := Nat.div_lt_self hpos (by norm_num)
        omega
      rw [natToDecAux, if_neg hn0, ih (n / 10) hdiv,
        Nat.digits_def' (by norm_num : (1 : Nat) < 10) hpos]
      simp

/-- Closed form of natToDec via the base-10 digit expansion. -/
theorem natToDec_eq_digits (n : Nat) :
    natToDec n = if n = 0 then ['0'] else ((Nat.digits 10 n).map digitChar).reverse := by
  by_cases h : n = 0
  · simp [natToDec, h]
  · simp [natToDec, h, natToDecAux_eq_digits n n le_rfl]

/-- Decimal rendering is injective on positive naturals. -/
theorem natToDec_inj_pos {m n : Nat} (hm : 0 < m) (hn : 0 < n)
    (h : natToDec m = natToDec n) : m = n := by
  rw [natToDec_eq_digits, natToDec_eq_digits, if_neg (Nat.pos_iff_ne_zero.mp hm),
    if_neg (Nat.pos_iff_ne_zero.mp hn)] at h
  have h2 : (Nat.digits 10 m).map digitChar = (Nat.digits 10 n).map digitChar :=
    List.reverse_injective h
  have h3 : Nat.digits 10 m = Nat.digits 10 n :=
    map_digitChar_inj _ _
      (fun x hx => Nat.digits_lt_base (by norm_num) hx)
      (fun x hx => Nat.digits_lt_base (by norm_num) hx) h2
  have := congrArg (Nat.ofDigits 10) h3
  rwa [Nat.ofDigits_digits, Nat.ofDigits_digits] at this

/-- Image filenames of distinct positive indices are distinct. -/
theorem imageFilename_inj (cfg : ScrapeConfig) {i j : Nat} (hi : 0 < i) (hj : 0 < j)
    (h : imageFilename cfg i = imageFilename cfg j) : i = j := by
  unfold imageFilename at h
  exact natToDec_inj_pos hi hj (List.append_cancel_right h)

/-- Destination paths of distinct positive indices on the same page are
distinct. -/
theorem outputImagePath_inj (cfg : ScrapeConfig) (page : Nat) {i j : Nat}
    (hi : 0 < i) (hj : 0 < j)
    (h : outputImagePath cfg page i = outputImagePath cfg page j) : i = j := by
  unfold outputImagePath at h
  have h2 := List.append_cancel_left h
  injection h2 with h2a h2b
  exact imageFilename_inj cfg hi hj h2b

/-! Lemmas about rstripSlash, for the URL-construction claim. -/

/-- Dropping while over a block of satisfying elements skips the block. -/
theorem dropWhile_replicate_append (p : Char → Bool) (c : Char) (hc : p c = true) :
    ∀ (n : Nat) (t : List Char),
      List.dropWhile p (List.replicate n c ++ t) = List.dropWhile p t := by
  intro n
  induction n with
  | zero => intro t; simp
  | succ m ih => intro t; simp [List.replicate_succ, List.dropWhile_cons, hc, ih]

/-- Appending trailing slashes does not change the rstrip result. -/
theorem rstripSlash_append_replicate (s : List Char) (n : Nat) :
    rstripSlash (s ++ List.replicate n '/') = rstripSlash s := by
  unfold rstripSlash
  rw [List.reverse_append, List.reverse_replicate,
    dropWhile_replicate_append _ '/' (by decide)]

/-- Head of a dropWhile result never satisfies the dropped predicate. -/
theorem head?_dropWhile (p : Char → Bool) :
    ∀ (l : List Char) (a : Char), (List.dropWhile p l).head? = some a → p a = false := by
  intro l
  induction l with
  | nil => intro a h; simp [List.dropWhile] at h
  | cons x xs ih =>
    intro a h
    rw [List.dropWhile_cons] at h
    by_cases hx : p x = true
    · rw [if_pos hx] at h; exact ih a h
    · rw [if_neg hx] at h
      simp only [List.head?_cons, Option.some.injEq] at h
      subst h
      simpa using hx

/-- The rstrip result never ends in a slash. -/
theorem rstripSlash_getLast_ne (s : List Char) :
    ∀ c, (rstripSlash s).getLast? = some c → c ≠ '/' := by
  intro c hc
  unfold rstripSlash at hc
  rw [List.getLast?_reverse] at hc
  have := head?_dropWhile (fun c => c == '/') s.reverse c hc
  simpa using this

/-- C9: URL construction is invariant under trailing slashes on the base URL,
and the constructed URL is the trailing-slash-stripped base URL, exactly one
separating slash, then the page segment, one slash, and the image filename;
the stripped base URL never ends in a slash. -/
theorem C9_url_trailing_slash_invariant (cfg : ScrapeConfig) (page idx n : Nat) :
    fullImageUrl
        ⟨cfg.base_url_for_pages ++ List.replicate n '/', cfg.parent_page_name_pfx,
          cfg.num_parent_pages, cfg.image_extension, cfg.max_images_per_page,
          cfg.output_directory⟩ page idx
      = fullImageUrl cfg page idx
    ∧ fullImageUrl cfg page idx =
        rstripSlash cfg.base_url_for_pages
          ++ '/' :: (parentPageSegment cfg page ++ '/' :: imageFilename cfg idx)
    ∧ ∀ c, (rstripSlash cfg.base_url_for_pages).getLast? = some c → c ≠ '/' := by
  refine ⟨?_, ?_, rstripSlash_getLast_ne cfg.base_url_for_pages⟩
  · simp [fullImageUrl, currentPageImageBaseUrl, parentPageSegment, imageFilename,
      rstripSlash_append_replicate]
  · simp [fullImageUrl, currentPageImageBaseUrl, List.append_assoc]

/-! Validation characterization and claim C4. -/

/-- A validated configuration is exactly one passing all four checks. -/
theorem validateConfig_none_iff (cfg : ScrapeConfig) :
    validateConfig cfg = none ↔
      ((listStartsWith httpLit cfg.base_url_for_pages = true
        ∨ listStartsWith httpsLit cfg.base_url_for_pages = true)
       ∧ listStartsWith ['.'] cfg.image_extension = true
       ∧ 0 < cfg.num_parent_pages ∧ 0 < cfg.max_images_per_page) := by
  unfold validateConfig
  split_ifs with h1 h2 h3 h4
  · simp only [Bool.not_eq_true'] at h1
    rw [Bool.or_eq_false_iff] at h1
    simp [h1.1, h1.2]
  · simp only [Bool.not_eq_true'] at h2
    simp [h2]
  · constructor
    · intro hh; cases hh
    · rintro ⟨_, _, hn, _⟩; omega
  · constructor
    · intro hh; cases hh
    · rintro ⟨_, _, _, hm⟩; omega
  · simp only [Bool.not_eq_true, Bool.not_eq_false'] at h1 h2
    rw [Bool.or_eq_true] at h1
    simp only [true_iff]
    exact ⟨h1, h2, by omega, by omega⟩

/-- Spec-side predicate, following claim C4's enumeration of precondition
violations: bad URL scheme, extension without the dot, non-positive page
count, non-positive image cap, or start page (fixed at 1 in the script)
exceeding the end page. Stated on the typed model, so the non-integer case of
the claim has no counterpart. -/
def specClaimedViolation (cfg : ScrapeConfig) : Bool :=
  (!listStartsWith httpLit cfg.base_url_for_pages
      && !listStartsWith httpsLit cfg.base_url_for_pages)
    || !listStartsWith ['.'] cfg.image_extension
    || decide (cfg.num_parent_pages ≤ 0)
    || decide (cfg.max_images_per_page ≤ 0)
    || decide (cfg.num_parent_pages < 1)

/-- C4: every configuration violating one of the claimed preconditions is
rejected by the validation of lines 31-43, and the run then aborts reporting
the specific violated constraint, with the filesystem unchanged and an empty
trace (so no network request and no filesystem modification happened). -/
theorem C4_invalid_config_aborts_without_side_effects (cfg : ScrapeConfig) (o : Oracle)
    (fs : FS) (h : specClaimedViolation cfg = true) :
    validateConfig cfg ≠ none
    ∧ scrape_images_from_pages cfg o fs =
        ⟨RunOutcome.configError ((validateConfig cfg).getD ConfigError.badBaseUrl), fs, []⟩ := by
  have hne : validateConfig cfg ≠ none := by
    intro hnone
    rw [validateConfig_none_iff] at hnone
    unfold specClaimedViolation at h
    obtain ⟨hb, he, hn, hm⟩ := hnone
    simp only [Bool.or_eq_true, Bool.and_eq_true, Bool.not_eq_true', decide_eq_true_eq] at h
    rcases h with ((((⟨h1, h2⟩ | h) | h) | h) | h)
    · rcases hb with hb | hb
      · rw [hb] at h1; cases h1
      · rw [hb] at h2; cases h2
    · rw [he] at h; cases h
    · omega
    · omega
    · omega
  refine ⟨hne, ?_⟩
  rcases hre : validateConfig cfg with _ | e
  · exact absurd hre hne
  · simp [scrape_images_from_pages, hre]

/-! Concrete fixtures used by the witness and counterexample theorems. -/

/-- Empty filesystem. -/
def wFS0 : FS := ⟨[], []⟩

/-- Filesystem where the root and the page-1 directory already exist. -/
def wFSdirs : FS := ⟨["out".toList, "out/p_1".toList], []⟩

/-- Filesystem where the page-1 directory and the image-1 file already exist. -/
def wFSfile : FS := ⟨["out".toList, "out/p_1".toList], ["out/p_1/1.jpg".toList]⟩

/-- Valid one-page configuration with an image cap of 5. -/
def wCfg : ScrapeConfig :=
  ⟨"http://x/a".toList, "p".toList, 1, ".jpg".toList, 5, "out".toList⟩

/-- Configuration violating the positive-page-count precondition. -/
def wCfgBadPages : ScrapeConfig :=
  ⟨"http://x/a".toList, "p".toList, 0, ".jpg".toList, 5, "out".toList⟩

/-- Valid two-page configuration with an image cap of 2. -/
def wCfgTwoPages : ScrapeConfig :=
  ⟨"http://x/a".toList, "p".toList, 2, ".jpg".toList, 2, "out".toList⟩

/-- World where images 1 and 2 of every page exist (status 200), image 3 is
missing (status 404), and all filesystem operations succeed. -/
def wOracle : Oracle :=
  ⟨fun _ i => if i ≤ 2 then FetchOutcome.status 200 else FetchOutcome.status 404,
   fun _ _ => true, fun _ => true, true⟩

/-- World where every request succeeds but every file write fails with an
OSError. -/
def wOracleBadWrite : Oracle :=
  ⟨fun _ _ => FetchOutcome.status 200, fun _ _ => false, fun _ => true, true⟩

/-- World where every request yields a server error status 500. -/
def wOracleErr : Oracle :=
  ⟨fun _ _ => FetchOutcome.status 500, fun _ _ => true, fun _ => true, true⟩

/-- World where page-directory creation always fails. -/
def wOracleNoDir : Oracle :=
  ⟨fun _ i => if i ≤ 2 then FetchOutcome.status 200 else FetchOutcome.status 404,
   fun _ _ => true, fun _ => false, true⟩

/-- Witness for C4 at the non-positive page-count configuration. -/
theorem C4_invalid_config_witness :
    validateConfig wCfgBadPages ≠ none
    ∧ scrape_images_from_pages wCfgBadPages wOracle wFS0 =
        ⟨RunOutcome.configError ((validateConfig wCfgBadPages).getD ConfigError.badBaseUrl),
          wFS0, []⟩ :=
  C4_invalid_config_aborts_without_side_effects wCfgBadPages wOracle wFS0 (by decide)

/-! Claim C5: already-existing files. -/

/-- C5: when the destination file of an index already exists, the inner loop
performs exactly the skip of lines 83-86: the filesystem is untouched (no
overwrite), the success counter is incremented, the trace gains only the skip
event (in particular no request event: no network call), and the loop
continues with the remaining indices. -/
theorem C5_existing_file_skipped (cfg : ScrapeConfig) (o : Oracle) (page idx : Nat)
    (rest : List Nat) (fs : FS) (dl last : Nat) (tr : List Event)
    (hval : validateConfig cfg = none)
    (h : outputImagePath cfg page idx ∈ fs.files) :
    innerLoop cfg o page (idx :: rest) fs dl last tr =
      innerLoop cfg o page rest fs (dl + 1) idx
        (tr ++ [Event.skippedExisting page idx]) := by
  rw [innerLoop]
  simp only [if_pos h]

/-- Witness for C5: with the file for page 1 index 1 already on disk, probing
indices 1 and 2 reduces to a skip of index 1 and the loop on index 2. -/
theorem C5_existing_file_witness :
    innerLoop wCfg wOracle 1 [1, 2] wFSfile 0 0 [] =
      innerLoop wCfg wOracle 1 [2] wFSfile 1 1 [Event.skippedExisting 1 1] :=
  C5_existing_file_skipped wCfg wOracle 1 1 [2] wFSfile 0 0 [] (by decide) (by decide)

/-! Claim C7: page directory creation failure is page-local. -/

/-- C7: when the page-local subdirectory does not exist and its creation
fails, the page is skipped (lines 68-74): the filesystem is unchanged, the
trace gains only the visit and the reported skip (no request, no write), and
the page loop continues with the remaining pages. -/
theorem C7_page_dir_failure_is_page_local (cfg : ScrapeConfig) (o : Oracle)
    (page : Nat) (ps : List Nat) (fs : FS) (tr : List Event)
    (hval : validateConfig cfg = none)
    (hd : pageOutputDir cfg page ∉ fs.dirs)
    (hf : o.mkdirPageOk page = false) :
    processPage cfg o page fs tr =
      PageResult.ok fs (tr ++ [Event.pageVisited page, Event.pageSkipped page])
    ∧ pagesLoop cfg o (page :: ps) fs tr =
        pagesLoop cfg o ps fs (tr ++ [Event.pageVisited page, Event.pageSkipped page]) := by
  have h1 : processPage cfg o page fs tr =
      PageResult.ok fs (tr ++ [Event.pageVisited page, Event.pageSkipped page]) := by
    unfold processPage
    rw [if_neg hd, if_neg (by simp [hf])]
    simp
  refine ⟨h1, ?_⟩
  rw [pagesLoop, h1]

/-- Witness for C7: with failing page-directory creation on an empty root,
page 1 of a two-page run is skipped and the loop proceeds to page 2. -/
theorem C7_page_dir_failure_witness :
    processPage wCfgTwoPages wOracleNoDir 1 ⟨["out".toList], []⟩ [] =
      PageResult.ok ⟨["out".toList], []⟩ [Event.pageVisited 1, Event.pageSkipped 1]
    ∧ pagesLoop wCfgTwoPages wOracleNoDir [1, 2] ⟨["out".toList], []⟩ [] =
        pagesLoop wCfgTwoPages wOracleNoDir [2] ⟨["out".toList], []⟩
          [Event.pageVisited 1, Event.pageSkipped 1] :=
  C7_page_dir_failure_is_page_local wCfgTwoPages wOracleNoDir 1 [2]
    ⟨["out".toList], []⟩ [] (by decide) (by decide) (by decide)

/-! Claim C2: the cap-reached report of lines 128-134. -/

/-- Valid one-page configuration whose image cap is 2. -/
def wCfgCap : ScrapeConfig :=
  ⟨"http://x/a".toList, "p".toList, 1, ".jpg".toList, 2, "out".toList⟩

/-- World where image 1 of every page exists and image 2 returns 404. -/
def wOracleCap : Oracle :=
  ⟨fun _ i => if i ≤ 1 then FetchOutcome.status 200 else FetchOutcome.status 404,
   fun _ _ => true, fun _ => true, true⟩

/-- C2 (refuting the claim as stated): with an image cap of 2, image 1
succeeding and image 2 returning 404, the inner loop stops early by break at
index 2 (the designed not-found stop, broke = true), yet the run's trace still
contains the cap-reached report, because lines 128-134 test the leaked loop
variable image_idx against max_images_per_page without knowing whether the
loop broke. The claim and the spec say cap-reached is never reported when the
loop stopped on a not-found, even at index max_images_per_page itself. -/
theorem C2_cap_misreported_after_stop :
    wOracleCap.fetch 1 2 = FetchOutcome.status 404
    ∧ innerLoop wCfgCap wOracleCap 1 (List.range' 1 2)
          ⟨["out".toList, "out/p_1".toList], []⟩ 0 0 [Event.pageVisited 1]
        = InnerResult.done ⟨["out".toList, "out/p_1".toList], ["out/p_1/1.jpg".toList]⟩
            1 2 true
            [Event.pageVisited 1, Event.request 1 1, Event.wrote 1 1, Event.request 1 2]
    ∧ Event.capReported 1 ∈ (scrape_images_from_pages wCfgCap wOracleCap wFS0).trace := by
  refine ⟨by decide, by decide, by decide⟩

/-! Machinery: with succeeding writes the run never aborts. -/

/-- True exactly on page-continuation results. -/
def PageResult.isOk : PageResult → Bool
  | PageResult.ok _ _ => true
  | PageResult.aborted _ _ _ => false

/-- Filesystem component of a page result. -/
def PageResult.fsOf : PageResult → FS
  | PageResult.ok fs _ => fs
  | PageResult.aborted fs _ _ => fs

/-- Trace component of a page result. -/
def PageResult.trOf : PageResult → List Event
  | PageResult.ok _ tr => tr
  | PageResult.aborted _ tr _ => tr

/-- When every write on the page succeeds, the inner loop always exits
normally (no uncaught exception). -/
theorem innerLoop_never_aborts (cfg : ScrapeConfig) (o : Oracle) (page : Nat)
    (hw : ∀ i, o.writeOk page i = true) :
    ∀ (idxs : List Nat) (fs : FS) (dl last : Nat) (tr : List Event),
      ∃ fs2 dl2 li br tr2,
        innerLoop cfg o page idxs fs dl last tr = InnerResult.done fs2 dl2 li br tr2 := by
  intro idxs
  induction idxs with
  | nil => intro fs dl last tr; exact ⟨fs, dl, last, false, tr, rfl⟩
  | cons idx rest ih =>
    intro fs dl last tr
    rw [innerLoop]
    by_cases hmem : outputImagePath cfg page idx ∈ fs.files
    · rw [if_pos hmem]; exact ih _ _ _ _
    · rw [if_neg hmem]
      rcases hf : o.fetch page idx with code | _ | _ | _ | _ <;> dsimp only
      · by_cases h200 : code = 200
        · rw [if_pos h200, hw idx, if_pos rfl]
          exact ih _ _ _ _
        · rw [if_neg h200]
          by_cases h404 : code = 404
          · rw [if_pos h404]; exact ⟨_, _, _, _, _, rfl⟩
          · rw [if_neg h404]; exact ⟨_, _, _, _, _, rfl⟩
      · exact ⟨_, _, _, _, _, rfl⟩
      · exact ⟨_, _, _, _, _, rfl⟩
      · exact ⟨_, _, _, _, _, rfl⟩
      · exact ⟨_, _, _, _, _, rfl⟩

/-- When every write on the page succeeds, processing the page always
continues to the next page. -/
theorem processPage_isOk (cfg : ScrapeConfig) (o : Oracle) (page : Nat) (fs : FS)
    (tr : List Event) (hw : ∀ i, o.writeOk page i = true) :
    (processPage cfg o page fs tr).isOk = true := by
  unfold processPage
  by_cases hd : pageOutputDir cfg page ∈ fs.dirs
  · rw [if_pos hd]
    obtain ⟨fs2, dl2, li, br, tr2, hh⟩ :=
      innerLoop_never_aborts cfg o page hw (List.range' 1 cfg.max_images_per_page.toNat)
        fs 0 0 (tr ++ [Event.pageVisited page])
    simp only [hh]
    split_ifs <;> rfl
  · rw [if_neg hd]
    by_cases hm : o.mkdirPageOk page = true
    · rw [if_pos hm]
      obtain ⟨fs2, dl2, li, br, tr2, hh⟩ :=
        innerLoop_never_aborts cfg o page hw (List.range' 1 cfg.max_images_per_page.toNat)
          ⟨fs.dirs ++ [pageOutputDir cfg page], fs.files⟩ 0 0 (tr ++ [Event.pageVisited page])
      simp only [hh]
      split_ifs <;> rfl
    · rw [if_neg hm]; rfl

/-- A page whose processing continues lets the page loop move on with the
resulting filesystem and trace. -/
theorem pagesLoop_cons_ok (cfg : ScrapeConfig) (o : Oracle) (page : Nat)
    (ps : List Nat) (fs : FS) (tr : List Event)
    (hok : (processPage cfg o page fs tr).isOk = true) :
    pagesLoop cfg o (page :: ps) fs tr =
      pagesLoop cfg o ps (processPage cfg o page fs tr).fsOf
        (processPage cfg o page fs tr).trOf := by
  rw [pagesLoop]
  rcases hp : processPage cfg o page fs tr with ⟨fs2, tr2, i2⟩ | ⟨fs2, tr2⟩
  · rw [hp] at hok; cases hok
  · simp [PageResult.fsOf, PageResult.trOf]

/-- When every write succeeds, the page loop runs to completion. -/
theorem pagesLoop_outcome_completed (cfg : ScrapeConfig) (o : Oracle)
    (hw : ∀ p i, o.writeOk p i = true) :
    ∀ (ps : List Nat) (fs : FS) (tr : List Event),
      (pagesLoop cfg o ps fs tr).outcome = RunOutcome.completed := by
  intro ps
  induction ps with
  | nil => intro fs tr; rfl
  | cons p rest ih =>
    intro fs tr
    rw [pagesLoop_cons_ok cfg o p rest fs tr (processPage_isOk cfg o p fs tr (fun i => hw p i))]
    exact ih _ _

/-! Claim C6: non-404 errors and transport failures stop the page. -/

/-- True on the fetch outcomes of claim C6: an HTTP status other than 200 and
404, or any of the caught transport-level exceptions. -/
def isErrorStop : FetchOutcome → Bool
  | FetchOutcome.status code => !(code == 200) && !(code == 404)
  | FetchOutcome.connError => true
  | FetchOutcome.timeoutErr => true
  | FetchOutcome.httpExc => true
  | FetchOutcome.reqExc => true

/-- C6: when the response for an index is a non-success non-not-found status
or a transport failure, the inner loop stops at once: one request event, no
file written, no retry, counter unchanged — the result value is literally the
one a 404 at the same point produces (the code treats them identically); and
(second and third conjuncts) the page loop still continues with the next page
whenever the page's writes succeed. -/
theorem C6_error_stop_like_not_found (cfg : ScrapeConfig) (o : Oracle) (page idx : Nat)
    (rest ps : List Nat) (fs fs0 : FS) (dl last : Nat) (tr tr0 : List Event)
    (hval : validateConfig cfg = none)
    (hne : outputImagePath cfg page idx ∉ fs.files)
    (herr : isErrorStop (o.fetch page idx) = true)
    (hw : ∀ i, o.writeOk page i = true) :
    innerLoop cfg o page (idx :: rest) fs dl last tr
        = InnerResult.done fs dl idx true (tr ++ [Event.request page idx])
    ∧ (processPage cfg o page fs0 tr0).isOk = true
    ∧ pagesLoop cfg o (page :: ps) fs0 tr0 =
        pagesLoop cfg o ps (processPage cfg o page fs0 tr0).fsOf
          (processPage cfg o page fs0 tr0).trOf := by
  have hok := processPage_isOk cfg o page fs0 tr0 hw
  refine ⟨?_, hok, pagesLoop_cons_ok cfg o page ps fs0 tr0 hok⟩
  rw [innerLoop, if_neg hne]
  rcases hf : o.fetch page idx with code | _ | _ | _ | _ <;> rw [hf] at herr <;> dsimp only
  · simp only [isErrorStop, Bool.and_eq_true, Bool.not_eq_true', beq_eq_false_iff_ne] at herr
    rw [if_neg herr.1, if_neg herr.2]

/-- Witness for C6 at a 500 status on page 1 index 1. -/
theorem C6_error_stop_witness :
    innerLoop wCfg wOracleErr 1 [1, 2] wFSdirs 0 0 []
        = InnerResult.done wFSdirs 0 1 true [Event.request 1 1]
    ∧ (processPage wCfg wOracleErr 1 wFS0 []).isOk = true
    ∧ pagesLoop wCfg wOracleErr [1] wFS0 [] =
        pagesLoop wCfg wOracleErr [] (processPage wCfg wOracleErr 1 wFS0 []).fsOf
          (processPage wCfg wOracleErr 1 wFS0 []).trOf :=
  C6_error_stop_like_not_found wCfg wOracleErr 1 1 [2] [] wFSdirs wFS0 0 0 [] []
    (by decide) (by decide) (by decide) (fun _ => rfl)

/-! Claim C3: error containment at the image/page boundary. -/

/-- C3 is refuted as stated: an OSError while writing the destination file is
not caught (the except clauses of lines 111-123 only catch requests
exceptions), so it escapes the page boundary and kills the run. Concretely:
two configured pages, every request succeeding, every write failing — the run
aborts during page 1 image 1 and page 2 is never visited. -/
theorem C3_write_failure_escapes_counterexample :
    (scrape_images_from_pages wCfgTwoPages wOracleBadWrite wFS0).outcome = RunOutcome.writeCrash
    ∧ Event.pageVisited 2 ∉ (scrape_images_from_pages wCfgTwoPages wOracleBadWrite wFS0).trace := by
  refine ⟨by decide, by decide⟩

/-- C3 amended: every error arising from the HTTP layer (any status, any
caught transport exception) or from page-directory creation stays within its
image or page boundary, so provided every destination-file write succeeds, a
validated run with an available root directory always completes the iteration
over all configured pages; a destination-file write failure, by contrast, is
uncaught and aborts the run (see the counterexample). -/
theorem C3_run_completes_when_writes_succeed (cfg : ScrapeConfig) (o : Oracle) (fs : FS)
    (hval : validateConfig cfg = none)
    (hroot : cfg.output_directory ∈ fs.dirs ∨ o.mkdirRootOk = true)
    (hw : ∀ p i, o.writeOk p i = true) :
    (scrape_images_from_pages cfg o fs).outcome = RunOutcome.completed := by
  unfold scrape_images_from_pages
  rw [hval]
  by_cases hd : cfg.output_directory ∈ fs.dirs
  · rw [if_pos hd]
    exact pagesLoop_outcome_completed cfg o hw _ _ _
  · rw [if_neg hd]
    rcases hroot with hroot | hroot
    · exact absurd hroot hd
    · rw [if_pos hroot]
      exact pagesLoop_outcome_completed cfg o hw _ _ _

/-- Witness for the amended C3 on a concrete two-page run. -/
theorem C3_run_completes_witness :
    (scrape_images_from_pages wCfgTwoPages wOracle wFS0).outcome = RunOutcome.completed :=
  C3_run_completes_when_writes_succeed wCfgTwoPages wOracle wFS0 (by decide)
    (Or.inr rfl) (fun _ _ => rfl)

/-! Claim C1: k successes followed by a 404. -/

/-- Exact run of the inner loop from index a when the next k indices succeed
(fresh files, status 200, successful writes) and index a + k returns 404:
the loop requests a..a+k in order, writes files for a..a+k-1, and breaks at
a + k. -/
theorem innerLoop_success_prefix (cfg : ScrapeConfig) (o : Oracle) (page : Nat) :
    ∀ (k a len : Nat) (fs : FS) (dl last : Nat) (tr : List Event),
      1 ≤ a → k + 1 ≤ len →
      (∀ i, a ≤ i → i < a + (k + 1) → outputImagePath cfg page i ∉ fs.files) →
      (∀ i, a ≤ i → i < a + k →
        o.fetch page i = FetchOutcome.status 200 ∧ o.writeOk page i = true) →
      o.fetch page (a + k) = FetchOutcome.status 404 →
      innerLoop cfg o page (List.range' a len) fs dl last tr =
        InnerResult.done
          ⟨fs.dirs, fs.files ++ (List.range' a k).map (outputImagePath cfg page)⟩
          (dl + k) (a + k) true
          (tr ++ ((List.range' a k).flatMap
              (fun i => [Event.request page i, Event.wrote page i]))
            ++ [Event.request page (a + k)]) := by
  intro k
  induction k with
  | zero =>
    intro a len fs dl last tr ha hlen hempty hsucc hstop
    rcases len with _ | len2
    · omega
    · rw [List.range'_succ]
      rw [innerLoop, if_neg (hempty a le_rfl (by omega))]
      rw [show a + 0 = a from rfl] at hstop
      rw [hstop]
      dsimp only
      rw [if_neg (by omega : ¬ (404 : Nat) = 200), if_pos rfl]
      obtain ⟨d, f⟩ := fs
      simp
  | succ m ih =>
    intro a len fs dl last tr ha hlen hempty hsucc hstop
    rcases len with _ | len2
    · omega
    · rw [List.range'_succ]
      have hmem : outputImagePath cfg page a ∉ fs.files := hempty a le_rfl (by omega)
      rw [innerLoop, if_neg hmem]
      obtain ⟨hf200, hwok⟩ := hsucc a le_rfl (by omega)
      rw [hf200]
      dsimp only
      rw [if_pos rfl, hwok, if_pos rfl]
      have hempty2 : ∀ i, a + 1 ≤ i → i < (a + 1) + (m + 1) →
          outputImagePath cfg page i ∉
            (FS.mk fs.dirs (fs.files ++ [outputImagePath cfg page a])).files := by
        intro i hi1 hi2
        simp only [List.mem_append, List.mem_singleton]
        rintro (hmem2 | heq)
        · exact hempty i (by omega) (by omega) hmem2
        · have : i = a := outputImagePath_inj cfg page (by omega) (by omega) heq
          omega
      have hsucc2 : ∀ i, a + 1 ≤ i → i < (a + 1) + m →
          o.fetch page i = FetchOutcome.status 200 ∧ o.writeOk page i = true :=
        fun i hi1 hi2 => hsucc i (by omega) (by omega)
      have hstop2 : o.fetch page ((a + 1) + m) = FetchOutcome.status 404 := by
        rw [show (a + 1) + m = a + (m + 1) from by omega]
        exact hstop
      rw [ih (a + 1) len2 ⟨fs.dirs, fs.files ++ [outputImagePath cfg page a]⟩
        (dl + 1) a ((tr ++ [Event.request page a]) ++ [Event.wrote page a])
        (by omega) (by omega) hempty2 hsucc2 hstop2]
      rw [show a + (m + 1) = (a + 1) + m from by omega,
        show dl + (m + 1) = (dl + 1) + m from by omega]
      rw [List.range'_succ]
      simp [List.append_assoc]

/-- Value of the request projection on a request event of the same page. -/
theorem requestIdxOn_request_self (p i : Nat) :
    requestIdxOn p (Event.request p i) = some i := by
  simp [requestIdxOn]

/-- Value of the request projection on a write event. -/
theorem requestIdxOn_wrote (p q i : Nat) :
    requestIdxOn p (Event.wrote q i) = none := rfl

/-- The request events of a success-prefix trace are exactly the probed
indices a..a+k in ascending order. -/
theorem filterMap_requests_success_trace (page : Nat) :
    ∀ (k a : Nat),
      (((List.range' a k).flatMap (fun i => [Event.request page i, Event.wrote page i]))
        ++ [Event.request page (a + k)]).filterMap (requestIdxOn page)
      = List.range' a (k + 1) := by
  intro k
  induction k with
  | zero =>
    intro a
    simp [requestIdxOn, List.range'_succ]
  | succ m ih =>
    intro a
    rw [List.range'_succ a m 1, List.flatMap_cons]
    rw [show a + (m + 1) = (a + 1) + m from by omega]
    rw [List.range'_succ a (m + 1) 1]
    simp only [List.cons_append, List.singleton_append, List.append_assoc, List.nil_append,
      List.filterMap_cons, requestIdxOn_request_self, requestIdxOn_wrote]
    rw [ih (a + 1)]

/-- C1: on a page whose destination files are absent for indices 1..k+1, with
k + 1 at most the image cap, successes at 1..k and a 404 at k+1, the inner
loop requests exactly indices 1..k+1 in ascending order (second conjunct),
writes exactly the k files for indices 1..k, counts k successes, and stops by
break at index k+1; for k = 0 this is one request and no download. -/
theorem C1_k_successes_then_not_found (cfg : ScrapeConfig) (o : Oracle) (page k : Nat)
    (fs : FS)
    (hval : validateConfig cfg = none)
    (hk : k + 1 ≤ cfg.max_images_per_page.toNat)
    (hempty : ∀ i, 1 ≤ i → i ≤ k + 1 → outputImagePath cfg page i ∉ fs.files)
    (hsucc : ∀ i, 1 ≤ i → i ≤ k →
      o.fetch page i = FetchOutcome.status 200 ∧ o.writeOk page i = true)
    (hstop : o.fetch page (k + 1) = FetchOutcome.status 404) :
    innerLoop cfg o page (List.range' 1 cfg.max_images_per_page.toNat) fs 0 0 [] =
      InnerResult.done
        ⟨fs.dirs, fs.files ++ (List.range' 1 k).map (outputImagePath cfg page)⟩
        k (k + 1) true
        (((List.range' 1 k).flatMap (fun i => [Event.request page i, Event.wrote page i]))
          ++ [Event.request page (k + 1)])
    ∧ (((List.range' 1 k).flatMap (fun i => [Event.request page i, Event.wrote page i]))
        ++ [Event.request page (k + 1)]).filterMap (requestIdxOn page)
      = List.range' 1 (k + 1) := by
  constructor
  · have hmain := innerLoop_success_prefix cfg o page k 1 cfg.max_images_per_page.toNat
      fs 0 0 [] le_rfl hk
      (fun i hi1 hi2 => hempty i hi1 (by omega))
      (fun i hi1 hi2 => hsucc i hi1 (by omega))
      (by rw [Nat.add_comm 1 k]; exact hstop)
    rw [Nat.add_comm 1 k] at hmain
    simp only [Nat.zero_add, List.nil_append] at hmain
    exact hmain
  · have hreq := filterMap_requests_success_trace page k 1
    rw [Nat.add_comm 1 k] at hreq
    exact hreq

/-- Witness for C1 with k = 2 successes, a 404 at index 3, and a cap of 5. -/
theorem C1_k_successes_witness :
    innerLoop wCfg wOracle 1 (List.range' 1 5) wFSdirs 0 0 [] =
      InnerResult.done
        ⟨wFSdirs.dirs, wFSdirs.files ++ (List.range' 1 2).map (outputImagePath wCfg 1)⟩
        2 3 true
        (((List.range' 1 2).flatMap (fun i => [Event.request 1 i, Event.wrote 1 i]))
          ++ [Event.request 1 3])
    ∧ (((List.range' 1 2).flatMap (fun i => [Event.request 1 i, Event.wrote 1 i]))
        ++ [Event.request 1 3]).filterMap (requestIdxOn 1)
      = List.range' 1 3 :=
  C1_k_successes_then_not_found wCfg wOracle 1 2 wFSdirs (by decide) (by decide)
    (by intro i hi1 hi2; simp [wFSdirs]) (by decide) (by decide)

/-! Claim C10: files created on a fresh page form a contiguous prefix. -/

/-- Filesystem component of an inner-loop result, whether the loop exited
normally or aborted on a write failure. -/
def InnerResult.fsOf : InnerResult → FS
  | InnerResult.aborted fs _ _ => fs
  | InnerResult.done fs _ _ _ _ => fs

/-- On a range of fresh indices (no pre-existing destination files), whatever
the fetch and write outcomes, the files the inner loop adds are exactly those
of the first k indices of the range, for some k bounded by the range length:
a failing write creates no file (open fails) and aborts, every earlier index
having succeeded. -/
theorem innerLoop_files_prefix (cfg : ScrapeConfig) (o : Oracle) (page : Nat) :
    ∀ (n a : Nat) (fs : FS) (dl last : Nat) (tr : List Event),
      1 ≤ a →
      (∀ i, a ≤ i → i < a + n → outputImagePath cfg page i ∉ fs.files) →
      ∃ k, k ≤ n ∧
        (innerLoop cfg o page (List.range' a n) fs dl last tr).fsOf =
          ⟨fs.dirs, fs.files ++ (List.range' a k).map (outputImagePath cfg page)⟩ := by
  intro n
  induction n with
  | zero =>
    intro a fs dl last tr ha hempty
    refine ⟨0, le_rfl, ?_⟩
    obtain ⟨d, f⟩ := fs
    simp [innerLoop, InnerResult.fsOf]
  | succ m ih =>
    intro a fs dl last tr ha hempty
    rw [List.range'_succ a m 1]
    have hmem : outputImagePath cfg page a ∉ fs.files := hempty a le_rfl (by omega)
    rw [innerLoop, if_neg hmem]
    rcases hf : o.fetch page a with code | _ | _ | _ | _ <;> dsimp only
    · by_cases h200 : code = 200
      · rw [if_pos h200]
        by_cases hwr : o.writeOk page a = true
        · rw [hwr, if_pos rfl]
          have hempty2 : ∀ i, a + 1 ≤ i → i < (a + 1) + m →
              outputImagePath cfg page i ∉
                (FS.mk fs.dirs (fs.files ++ [outputImagePath cfg page a])).files := by
            intro i hi1 hi2
            simp only [List.mem_append, List.mem_singleton]
            rintro (hmem2 | heq)
            · exact hempty i (by omega) (by omega) hmem2
            · have : i = a := outputImagePath_inj cfg page (by omega) (by omega) heq
              omega
          obtain ⟨k2, hk2, hrun⟩ :=
            ih (a + 1) ⟨fs.dirs, fs.files ++ [outputImagePath cfg page a]⟩ (dl + 1) a
              ((tr ++ [Event.request page a]) ++ [Event.wrote page a]) (by omega) hempty2
          refine ⟨k2 + 1, by omega, ?_⟩
          rw [hrun, List.range'_succ a k2 1]
          simp [List.append_assoc]
        · rw [Bool.not_eq_true] at hwr
          rw [hwr]
          refine ⟨0, by omega, ?_⟩
          obtain ⟨d, f⟩ := fs
          simp [InnerResult.fsOf]
      · rw [if_neg h200]
        by_cases h404 : code = 404
        · rw [if_pos h404]
          refine ⟨0, by omega, ?_⟩
          obtain ⟨d, f⟩ := fs
          simp [InnerResult.fsOf]
        · rw [if_neg h404]
          refine ⟨0, by omega, ?_⟩
          obtain ⟨d, f⟩ := fs
          simp [InnerResult.fsOf]
    · refine ⟨0, by omega, ?_⟩
      obtain ⟨d, f⟩ := fs
      simp [InnerResult.fsOf]
    · refine ⟨0, by omega, ?_⟩
      obtain ⟨d, f⟩ := fs
      simp [InnerResult.fsOf]
    · refine ⟨0, by omega, ?_⟩
      obtain ⟨d, f⟩ := fs
      simp [InnerResult.fsOf]
    · refine ⟨0, by omega, ?_⟩
      obtain ⟨d, f⟩ := fs
      simp [InnerResult.fsOf]

/-- C10: starting a page with no pre-existing image files for its indices, the
image files existing in its subdirectory when the page's iteration ends
(normally or by an aborting write failure) are exactly those of the indices
1..k for some k bounded by the cap — a contiguous prefix with no gaps: a file
for index i exists only if every smaller index succeeded. -/
theorem C10_files_form_contiguous_prefix (cfg : ScrapeConfig) (o : Oracle) (page : Nat)
    (fs : FS) (tr : List Event)
    (hval : validateConfig cfg = none)
    (hempty : ∀ i, 1 ≤ i → i ≤ cfg.max_images_per_page.toNat →
      outputImagePath cfg page i ∉ fs.files) :
    ∃ k, k ≤ cfg.max_images_per_page.toNat ∧
      (innerLoop cfg o page (List.range' 1 cfg.max_images_per_page.toNat) fs 0 0 tr).fsOf =
        ⟨fs.dirs, fs.files ++ (List.range' 1 k).map (outputImagePath cfg page)⟩ :=
  innerLoop_files_prefix cfg o page cfg.max_images_per_page.toNat 1 fs 0 0 tr le_rfl
    (fun i hi1 hi2 => hempty i hi1 (by omega))

/-- Witness for C10 on the concrete two-successes-then-404 world. -/
theorem C10_files_witness :
    ∃ k, k ≤ wCfg.max_images_per_page.toNat ∧
      (innerLoop wCfg wOracle 1 (List.range' 1 wCfg.max_images_per_page.toNat)
          wFSdirs 0 0 []).fsOf =
        ⟨wFSdirs.dirs, wFSdirs.files ++ (List.range' 1 k).map (outputImagePath wCfg 1)⟩ :=
  C10_files_form_contiguous_prefix wCfg wOracle 1 wFSdirs [] (by decide)
    (by intro i hi1 hi2; simp [wFSdirs])


/-! Claim C8: ordering of pages and image probes. -/

/-- True on the events the inner loop can emit for the given page. -/
def isInnerEventOf (p : Nat) : Event → Bool
  | Event.request q _ => q == p
  | Event.wrote q _ => q == p
  | Event.skippedExisting q _ => q == p
  | Event.pageVisited _ => false
  | Event.pageSkipped _ => false
  | Event.capReported _ => false

/-- Value of the probe projection on a request event of the same page. -/
theorem probedIdxOn_request_self (p i : Nat) :
    probedIdxOn p (Event.request p i) = some i := by
  simp [probedIdxOn]

/-- Value of the probe projection on a skip event of the same page. -/
theorem probedIdxOn_skip_self (p i : Nat) :
    probedIdxOn p (Event.skippedExisting p i) = some i := by
  simp [probedIdxOn]

/-- Value of the probe projection on a write event. -/
theorem probedIdxOn_wrote (p q i : Nat) : probedIdxOn p (Event.wrote q i) = none := rfl

/-- Inner-loop events of one page are invisible to the probe projection of any
other page. -/
theorem probedIdxOn_of_inner_ne (p q : Nat) (e : Event) (he : isInnerEventOf p e = true)
    (hq : q ≠ p) : probedIdxOn q e = none := by
  cases e with
  | request p2 i2 =>
    simp only [isInnerEventOf, beq_iff_eq] at he
    subst he
    simp [probedIdxOn, Ne.symm hq]
  | skippedExisting p2 i2 =>
    simp only [isInnerEventOf, beq_iff_eq] at he
    subst he
    simp [probedIdxOn, Ne.symm hq]
  | wrote p2 i2 => rfl
  | pageVisited p2 => simp [isInnerEventOf] at he
  | pageSkipped p2 => simp [isInnerEventOf] at he
  | capReported p2 => simp [isInnerEventOf] at he

/-- Inner-loop events are invisible to the page-visit projection. -/
theorem visitedOf_of_inner (p : Nat) (e : Event) (he : isInnerEventOf p e = true) :
    visitedOf e = none := by
  cases e <;> simp [isInnerEventOf] at he <;> rfl

/-- A request projection hit is also a probe projection hit. -/
theorem requestIdxOn_imp_probed (q : Nat) :
    ∀ (e : Event) (i : Nat), requestIdxOn q e = some i → probedIdxOn q e = some i := by
  intro e i h
  cases e with
  | request p2 i2 => exact h
  | pageVisited p2 => exact absurd h (by simp [requestIdxOn])
  | pageSkipped p2 => exact absurd h (by simp [requestIdxOn])
  | wrote p2 i2 => exact absurd h (by simp [requestIdxOn])
  | skippedExisting p2 i2 => exact absurd h (by simp [requestIdxOn])
  | capReported p2 => exact absurd h (by simp [requestIdxOn])

/-- Pointwise-dominated option projections give sublist filterMap results. -/
theorem filterMap_sublist_mono (f g : Event → Option Nat)
    (hfg : ∀ e i, f e = some i → g e = some i) :
    ∀ l : List Event, (l.filterMap f).Sublist (l.filterMap g) := by
  intro l
  induction l with
  | nil => simp
  | cons e rest ih =>
    rw [List.filterMap_cons, List.filterMap_cons]
    rcases hfe : f e with _ | i
    · rcases hge : g e with _ | j
      · exact ih
      · exact ih.trans (List.sublist_cons_self j _)
    · rw [hfg e i hfe]
      exact ih.cons₂ i

/-- Trace shape of the inner loop when writes succeed: it appends only
inner events of its page, and the indices it probes (existence check or
request) are exactly a..a+r-1 for some r bounded by the range length, in
ascending order. -/
theorem innerLoop_trace_spec (cfg : ScrapeConfig) (o : Oracle) (page : Nat)
    (hw : ∀ i, o.writeOk page i = true) :
    ∀ (n a : Nat) (fs : FS) (dl last : Nat) (tr : List Event),
      ∃ fs2 dl2 li br Δ r,
        innerLoop cfg o page (List.range' a n) fs dl last tr =
          InnerResult.done fs2 dl2 li br (tr ++ Δ)
        ∧ r ≤ n
        ∧ (∀ e ∈ Δ, isInnerEventOf page e = true)
        ∧ Δ.filterMap (probedIdxOn page) = List.range' a r := by
  intro n
  induction n with
  | zero =>
    intro a fs dl last tr
    exact ⟨fs, dl, last, false, [], 0, by simp [innerLoop], by omega, by simp, by simp⟩
  | succ m ih =>
    intro a fs dl last tr
    rw [List.range'_succ a m 1]
    by_cases hmem : outputImagePath cfg page a ∈ fs.files
    · rw [innerLoop, if_pos hmem]
      obtain ⟨fs2, dl2, li, br, Δ, r, hrun, hr, hinner, hprobe⟩ :=
        ih (a + 1) fs (dl + 1) a (tr ++ [Event.skippedExisting page a])
      refine ⟨fs2, dl2, li, br, Event.skippedExisting page a :: Δ, r + 1, ?_, by omega, ?_, ?_⟩
      · rw [hrun]; simp
      · intro e he
        rcases List.mem_cons.mp he with rfl | he2
        · simp [isInnerEventOf]
        · exact hinner e he2
      · rw [List.filterMap_cons, probedIdxOn_skip_self, hprobe, List.range'_succ a r 1]
    · rw [innerLoop, if_neg hmem]
      rcases hf : o.fetch page a with code | _ | _ | _ | _ <;> dsimp only
      · by_cases h200 : code = 200
        · rw [if_pos h200, hw a, if_pos rfl]
          obtain ⟨fs2, dl2, li, br, Δ, r, hrun, hr, hinner, hprobe⟩ :=
            ih (a + 1) ⟨fs.dirs, fs.files ++ [outputImagePath cfg page a]⟩ (dl + 1) a
              ((tr ++ [Event.request page a]) ++ [Event.wrote page a])
          refine ⟨fs2, dl2, li, br, Event.request page a :: Event.wrote page a :: Δ, r + 1,
            ?_, by omega, ?_, ?_⟩
          · rw [hrun]; simp
          · intro e he
            rcases List.mem_cons.mp he with rfl | he2
            · simp [isInnerEventOf]
            · rcases List.mem_cons.mp he2 with rfl | he3
              · simp [isInnerEventOf]
              · exact hinner e he3
          · rw [List.filterMap_cons, probedIdxOn_request_self, List.filterMap_cons,
              probedIdxOn_wrote, hprobe, List.range'_succ a r 1]
        · rw [if_neg h200]
          by_cases h404 : code = 404
          · rw [if_pos h404]
            exact ⟨fs, dl, a, true, [Event.request page a], 1, rfl, by omega,
              by intro e he; rcases List.mem_cons.mp he with rfl | he2;
                 · simp [isInnerEventOf]
                 · simp at he2,
              by rw [List.filterMap_cons, probedIdxOn_request_self]; rfl⟩
          · rw [if_neg h404]
            exact ⟨fs, dl, a, true, [Event.request page a], 1, rfl, by omega,
              by intro e he; rcases List.mem_cons.mp he with rfl | he2;
                 · simp [isInnerEventOf]
                 · simp at he2,
              by rw [List.filterMap_cons, probedIdxOn_request_self]; rfl⟩
      · exact ⟨fs, dl, a, true, [Event.request page a], 1, rfl, by omega,
          by intro e he; rcases List.mem_cons.mp he with rfl | he2;
             · simp [isInnerEventOf]
             · simp at he2,
          by rw [List.filterMap_cons, probedIdxOn_request_self]; rfl⟩
      · exact ⟨fs, dl, a, true, [Event.request page a], 1, rfl, by omega,
          by intro e he; rcases List.mem_cons.mp he with rfl | he2;
             · simp [isInnerEventOf]
             · simp at he2,
          by rw [List.filterMap_cons, probedIdxOn_request_self]; rfl⟩
      · exact ⟨fs, dl, a, true, [Event.request page a], 1, rfl, by omega,
          by intro e he; rcases List.mem_cons.mp he with rfl | he2;
             · simp [isInnerEventOf]
             · simp at he2,
          by rw [List.filterMap_cons, probedIdxOn_request_self]; rfl⟩
      · exact ⟨fs, dl, a, true, [Event.request page a], 1, rfl, by omega,
          by intro e he; rcases List.mem_cons.mp he with rfl | he2;
             · simp [isInnerEventOf]
             · simp at he2,
          by rw [List.filterMap_cons, probedIdxOn_request_self]; rfl⟩

/-- Trace shape of one page iteration when the page's writes succeed: the page
continues, its events are one visit of this page plus inner events of this
page plus possibly the cap report, and the probed indices are exactly 1..r in
ascending order for some r bounded by the cap. -/
theorem processPage_trace_spec (cfg : ScrapeConfig) (o : Oracle) (p : Nat) (fs : FS)
    (tr : List Event) (hw : ∀ i, o.writeOk p i = true) :
    ∃ fs2 Δ r,
      processPage cfg o p fs tr = PageResult.ok fs2 (tr ++ Δ)
      ∧ r ≤ cfg.max_images_per_page.toNat
      ∧ Δ.filterMap visitedOf = [p]
      ∧ Δ.filterMap (probedIdxOn p) = List.range' 1 r
      ∧ (∀ q, q ≠ p → Δ.filterMap (probedIdxOn q) = []) := by
  unfold processPage
  have build : ∀ fs1 : FS,
      ∃ fs2 Δ r,
        (match innerLoop cfg o p (List.range' 1 cfg.max_images_per_page.toNat) fs1 0 0
            (tr ++ [Event.pageVisited p]) with
          | InnerResult.aborted fs3 tr3 idx => PageResult.aborted fs3 tr3 idx
          | InnerResult.done fs3 dl lastIdx _ tr3 =>
            if dl = 0 ∧ 1 < lastIdx ∧ lastIdx < cfg.max_images_per_page.toNat then
              PageResult.ok fs3 tr3
            else if 0 < dl ∧ lastIdx = cfg.max_images_per_page.toNat then
              PageResult.ok fs3 (tr3 ++ [Event.capReported p])
            else
              PageResult.ok fs3 tr3)
          = PageResult.ok fs2 (tr ++ Δ)
        ∧ r ≤ cfg.max_images_per_page.toNat
        ∧ Δ.filterMap visitedOf = [p]
        ∧ Δ.filterMap (probedIdxOn p) = List.range' 1 r
        ∧ (∀ q, q ≠ p → Δ.filterMap (probedIdxOn q) = []) := by
    intro fs1
    obtain ⟨fs2, dl2, li, br, Δi, r, hrun, hr, hinner, hprobe⟩ :=
      innerLoop_trace_spec cfg o p hw cfg.max_images_per_page.toNat 1 fs1 0 0
        (tr ++ [Event.pageVisited p])
    have hvisΔi : Δi.filterMap visitedOf = [] :=
      List.filterMap_eq_nil_iff.mpr (fun e he => visitedOf_of_inner p e (hinner e he))
    have hotherΔi : ∀ q, q ≠ p → Δi.filterMap (probedIdxOn q) = [] := fun q hq =>
      List.filterMap_eq_nil_iff.mpr (fun e he => probedIdxOn_of_inner_ne p q e (hinner e he) hq)
    rw [hrun]
    dsimp only
    split_ifs with h1 h2
    · refine ⟨fs2, Event.pageVisited p :: Δi, r, by simp, hr, ?_, ?_, ?_⟩
      · rw [List.filterMap_cons]
        simp only [visitedOf]
        rw [hvisΔi]
      · rw [List.filterMap_cons]
        simpa [probedIdxOn] using hprobe
      · intro q hq
        rw [List.filterMap_cons]
        simpa [probedIdxOn] using hotherΔi q hq
    · refine ⟨fs2, Event.pageVisited p :: (Δi ++ [Event.capReported p]), r, by simp, hr,
        ?_, ?_, ?_⟩
      · rw [List.filterMap_cons]
        simp only [visitedOf]
        rw [List.filterMap_append, hvisΔi]
        rfl
      · rw [List.filterMap_cons]
        simp only [List.filterMap_append, hprobe]
        simp [probedIdxOn]
      · intro q hq
        rw [List.filterMap_cons]
        simp only [List.filterMap_append, hotherΔi q hq]
        simp [probedIdxOn]
    · refine ⟨fs2, Event.pageVisited p :: Δi, r, by simp, hr, ?_, ?_, ?_⟩
      · rw [List.filterMap_cons]
        simp only [visitedOf]
        rw [hvisΔi]
      · rw [List.filterMap_cons]
        simpa [probedIdxOn] using hprobe
      · intro q hq
        rw [List.filterMap_cons]
        simpa [probedIdxOn] using hotherΔi q hq
  by_cases hd : pageOutputDir cfg p ∈ fs.dirs
  · rw [if_pos hd]
    exact build fs
  · rw [if_neg hd]
    by_cases hm : o.mkdirPageOk p = true
    · rw [if_pos hm]
      exact build ⟨fs.dirs ++ [pageOutputDir cfg p], fs.files⟩
    · rw [if_neg hm]
      refine ⟨fs, [Event.pageVisited p, Event.pageSkipped p], 0, by simp, by omega, ?_, ?_, ?_⟩
      · rfl
      · rfl
      · intro q hq; rfl

/-- Trace shape of the page loop over distinct pages, with succeeding writes:
the run completes, the visited pages are exactly the given list in order, and
for every page the probed indices form an ascending contiguous block 1..r. -/
theorem pagesLoop_trace_spec (cfg : ScrapeConfig) (o : Oracle)
    (hw : ∀ p i, o.writeOk p i = true) :
    ∀ (ps : List Nat), ps.Nodup → ∀ (fs : FS) (tr : List Event),
      ∃ fs2 Δ,
        pagesLoop cfg o ps fs tr = ⟨RunOutcome.completed, fs2, tr ++ Δ⟩
        ∧ Δ.filterMap visitedOf = ps
        ∧ (∀ q, q ∉ ps → Δ.filterMap (probedIdxOn q) = [])
        ∧ (∀ q, ∃ r, r ≤ cfg.max_images_per_page.toNat ∧
            Δ.filterMap (probedIdxOn q) = List.range' 1 r) := by
  intro ps
  induction ps with
  | nil =>
    intro _ fs tr
    exact ⟨fs, [], by simp [pagesLoop], rfl, fun q _ => rfl,
      fun q => ⟨0, by omega, rfl⟩⟩
  | cons p rest ih =>
    intro hnd fs tr
    obtain ⟨hp, hrest⟩ := List.nodup_cons.mp hnd
    obtain ⟨fs1, Δ1, r1, hpp, hr1, hvis1, hprobe1, hother1⟩ :=
      processPage_trace_spec cfg o p fs tr (fun i => hw p i)
    obtain ⟨fs2, Δ2, hrun2, hvis2, hnot2, hall2⟩ := ih hrest fs1 (tr ++ Δ1)
    rw [pagesLoop, hpp]
    dsimp only
    rw [hrun2]
    refine ⟨fs2, Δ1 ++ Δ2, by rw [List.append_assoc], ?_, ?_, ?_⟩
    · rw [List.filterMap_append, hvis1, hvis2]
      rfl
    · intro q hq
      rw [List.filterMap_append,
        hother1 q (fun he => hq (he ▸ List.mem_cons_self p rest)),
        hnot2 q (fun he => hq (List.mem_cons_of_mem p he))]
      rfl
    · intro q
      by_cases hqp : q = p
      · subst hqp
        refine ⟨r1, hr1, ?_⟩
        rw [List.filterMap_append, hprobe1, hnot2 q hp, List.append_nil]
      · obtain ⟨r2, hr2, hq2⟩ := hall2 q
        refine ⟨r2, hr2, ?_⟩
        rw [List.filterMap_append, hother1 q hqp, hq2, List.nil_append]

/-- C8: for a validated configuration with an available root directory and
succeeding writes, the pages visited are exactly 1..num_parent_pages in
ascending order; within any page the probed image indices are exactly an
ascending contiguous block 1..r (r at most the cap); and the indices of the
actual HTTP requests of any page are strictly ascending, so no request for an
index is issued before the outcome of every smaller probed index — the model
is single-threaded, each request's outcome being consumed before the trace
continues. -/
theorem C8_pages_and_indices_ascending (cfg : ScrapeConfig) (o : Oracle) (fs : FS)
    (hval : validateConfig cfg = none)
    (hroot : cfg.output_directory ∈ fs.dirs ∨ o.mkdirRootOk = true)
    (hw : ∀ p i, o.writeOk p i = true) :
    (scrape_images_from_pages cfg o fs).trace.filterMap visitedOf =
      List.range' 1 cfg.num_parent_pages.toNat
    ∧ (∀ p, ∃ r, r ≤ cfg.max_images_per_page.toNat ∧
        (scrape_images_from_pages cfg o fs).trace.filterMap (probedIdxOn p) =
          List.range' 1 r)
    ∧ (∀ p, ((scrape_images_from_pages cfg o fs).trace.filterMap
        (requestIdxOn p)).Pairwise (· < ·)) := by
  obtain ⟨fs2, Δ, hrun, hvis, hnone, hall⟩ :
      ∃ fs2 Δ, scrape_images_from_pages cfg o fs = ⟨RunOutcome.completed, fs2, Δ⟩
        ∧ Δ.filterMap visitedOf = List.range' 1 cfg.num_parent_pages.toNat
        ∧ (∀ q, q ∉ List.range' 1 cfg.num_parent_pages.toNat →
            Δ.filterMap (probedIdxOn q) = [])
        ∧ (∀ q, ∃ r, r ≤ cfg.max_images_per_page.toNat ∧
            Δ.filterMap (probedIdxOn q) = List.range' 1 r) := by
    unfold scrape_images_from_pages
    rw [hval]
    have hnodup : (List.range' 1 cfg.num_parent_pages.toNat).Nodup :=
      List.nodup_range' 1 _
    by_cases hd : cfg.output_directory ∈ fs.dirs
    · rw [if_pos hd]
      obtain ⟨fs2, Δ, h1, h2, h3, h4⟩ := pagesLoop_trace_spec cfg o hw _ hnodup fs []
      rw [List.nil_append] at h1
      exact ⟨fs2, Δ, h1, h2, h3, h4⟩
    · rw [if_neg hd]
      rcases hroot with hroot | hroot
      · exact absurd hroot hd
      · rw [if_pos hroot]
        obtain ⟨fs2, Δ, h1, h2, h3, h4⟩ := pagesLoop_trace_spec cfg o hw _ hnodup _ []
        rw [List.nil_append] at h1
        exact ⟨fs2, Δ, h1, h2, h3, h4⟩
  rw [hrun]
  dsimp only
  refine ⟨hvis, hall, ?_⟩
  intro p
  obtain ⟨r, hr, hp⟩ := hall p
  have hsub := filterMap_sublist_mono (requestIdxOn p) (probedIdxOn p)
    (requestIdxOn_imp_probed p) Δ
  rw [hp] at hsub
  exact List.Pairwise.sublist hsub (List.pairwise_lt_range' 1 r)

/-- Witness for C8 on a concrete completed two-page run. -/
theorem C8_ordering_witness :
    (scrape_images_from_pages wCfgTwoPages wOracle wFS0).trace.filterMap visitedOf =
      List.range' 1 wCfgTwoPages.num_parent_pages.toNat
    ∧ (∀ p, ∃ r, r ≤ wCfgTwoPages.max_images_per_page.toNat ∧
        (scrape_images_from_pages wCfgTwoPages wOracle wFS0).trace.filterMap
          (probedIdxOn p) = List.range' 1 r)
    ∧ (∀ p, ((scrape_images_from_pages wCfgTwoPages wOracle wFS0).trace.filterMap
        (requestIdxOn p)).Pairwise (· < ·)) :=
  C8_pages_and_indices_ascending wCfgTwoPages wOracle wFS0 (by decide) (Or.inr rfl)
    (fun _ _ => rfl)

/-- C8 as stated is refuted by the same uncaught write failure as C3: with two
configured pages and a failing write on page 1 image 1, the run dies during
page 1, so the pages processed are [1] alone, not the full range 1..2 the
claim promises for every valid configuration. -/
theorem C8_crash_counterexample :
    (scrape_images_from_pages wCfgTwoPages wOracleBadWrite wFS0).trace.filterMap visitedOf
      ≠ List.range' 1 wCfgTwoPages.num_parent_pages.toNat := by
  decide
